import Mathlib

/-!
Verification of the race-progression core of the missionhub-race front-end.

The racing scene lives in `src/unnamed/part_001` (a React component hosting a
Phaser scene).  Its mutable module-level variables (`raceStarted`, `raceTime`,
`currentCheckpoint`, `lapCount`, `maxLaps`, the `checkpoints` array) form the
race session; the checkpoint overlap handler, the per-frame `update` callback,
`finishRace`, `handlePause` and `handleRestart` mutate it.  The leaderboard
win-rate helpers live in `src/src/components/Leaderboard/Leaderboard.tsx`.

This file gives a shallow embedding of those pieces and settles the claims
of the spec about them.  Session counters are JavaScript numbers that only ever
hold non-negative integers along reachable paths, so they are modelled as `ℕ`
(the lap target, compared with `>=`, is modelled as `ℤ` so that non-positive
configured targets are expressible); the race clock is modelled as `ℚ`;
player/AI kinematics use `ℝ`.
-/

namespace MissionHubRace

/-- The race-result record passed to `onGameEnd` by `finishRace`
(`src/unnamed/part_001` lines 273-279): `{ time: finalTime, laps: lapCount,
position: 1 }`. -/
structure RaceResult where
  time : ℚ
  laps : ℕ
  position : ℕ
deriving DecidableEq

/-- The race-session state: the module-level variables of `GameCanvas`
(`src/unnamed/part_001` lines 66-74) that the race logic reads and writes.
`numCheckpoints` is `checkpoints.length` (5 once `create` has pushed the five
checkpoint rectangles). -/
@[ext]
structure Session where
  raceStarted : Bool
  raceTime : ℚ
  currentCheckpoint : ℕ
  lapCount : ℕ
  maxLaps : ℤ
  numCheckpoints : ℕ
deriving DecidableEq

/-- The session as initialised by the module-level declarations together with
`create` (lines 66-74 and 99-137): `raceStarted = false`, `raceTime = 0`,
`lapCount = 0`, five checkpoints.  The source hard-codes `maxLaps = 3` and
`currentCheckpoint = 0` and performs no validation anywhere; the two
parameters expose those two configured values so that claims quantifying over
the configuration can be stated. -/
def initialSession (maxLaps0 : ℤ) (currentCheckpoint0 : ℕ) : Session :=
  { raceStarted := false
    raceTime := 0
    currentCheckpoint := currentCheckpoint0
    lapCount := 0
    maxLaps := maxLaps0
    numCheckpoints := 5 }

/-- The countdown callback (lines 202-208): after the fixed 3 s delay it sets
`raceStarted = true` and changes nothing else. -/
def startRace (s : Session) : Session :=
  { s with raceStarted := true }

/-- A fresh racing session right after the `pending → racing` countdown flip,
generalized over the lap target `L` and checkpoint count `N` (the source has
`L = 3`, `N = 5`). -/
def racingSession (L N : ℕ) : Session :=
  { raceStarted := true
    raceTime := 0
    currentCheckpoint := 0
    lapCount := 0
    maxLaps := (L : ℤ)
    numCheckpoints := N }

/-- Source function finishRace (lines 264-284): sets `raceStarted = false` and emits the
race-result record `{ time: raceTime / 1000, laps: lapCount, position: 1 }`. -/
def finishRace (s : Session) : Session × RaceResult :=
  ({ s with raceStarted := false },
   { time := s.raceTime / 1000, laps := s.lapCount, position := 1 })

/-- The checkpoint overlap handler registered for checkpoint `i`
(lines 171-188).  If `i` equals `currentCheckpoint` it advances
`currentCheckpoint` by one modulo `checkpoints.length`; on a wrap to 0 it
increments `lapCount` and, if `lapCount >= maxLaps`, calls `finishRace`.
Returns the new session and the race result emitted (if any). -/
def checkpointOverlap (i : ℕ) (s : Session) : Session × Option RaceResult :=
  if i = s.currentCheckpoint then
    let s1 := { s with currentCheckpoint := (s.currentCheckpoint + 1) % s.numCheckpoints }
    if s1.currentCheckpoint = 0 then
      let s2 := { s1 with lapCount := s1.lapCount + 1 }
      if s2.maxLaps ≤ (s2.lapCount : ℤ) then
        let fr := finishRace s2
        (fr.1, some fr.2)
      else (s2, none)
    else (s1, none)
  else (s, none)

/-- Process a sequence of checkpoint entries (overlap-handler firings),
collecting every emitted race result in order. -/
def runEntries (es : List ℕ) (s : Session) : Session × List RaceResult :=
  match es with
  | [] => (s, [])
  | e :: rest =>
    let step := checkpointOverlap e s
    let next := runEntries rest step.1
    (next.1, step.2.toList ++ next.2)

/-- The first `k` in-order checkpoint entries for a track with `N`
checkpoints: `0, 1, ..., N-1, 0, 1, ...`. -/
def inOrder (N k : ℕ) : List ℕ :=
  (List.range k).map (· % N)

/-- One engine frame acting on the session.  `handlePause` (lines 286-295)
pauses the whole Phaser scene, so while paused neither the physics overlap
callbacks nor the `update` callback run; when active, overlap firings are
processed (they are not gated by `raceStarted`), and the `update` body
(lines 211-214) advances `raceTime` by `delta` only when `raceStarted` and not
paused. -/
def frame (isPaused : Bool) (delta : ℚ) (overlaps : List ℕ) (s : Session) :
    Session × List RaceResult :=
  if isPaused then (s, [])
  else
    let po := runEntries overlaps s
    if po.1.raceStarted then
      ({ po.1 with raceTime := po.1.raceTime + delta }, po.2)
    else (po.1, po.2)

/-- Run a sequence of frames, each given as (isPaused, delta, overlap firings). -/
def runFrames (fs : List (Bool × ℚ × List ℕ)) (s : Session) : Session × List RaceResult :=
  match fs with
  | [] => (s, [])
  | f :: rest =>
    let r := frame f.1 f.2.1 f.2.2 s
    let n := runFrames rest r.1
    (n.1, r.2 ++ n.2)

/-- Kinematic state of a car rectangle: its `rotation` and its arcade-physics
body velocity. -/
structure CarState where
  rotation : ℝ
  velocity : ℝ × ℝ

/-- The directional input flags read each tick (`cursors.left/right/up/down`,
lines 219-234). -/
structure ControlInput where
  left : Bool
  right : Bool
  up : Bool
  down : Bool

/-- Speed of a velocity vector, as computed at line 259:
`Math.sqrt(velocity.x ** 2 + velocity.y ** 2)`. -/
noncomputable def speed (v : ℝ × ℝ) : ℝ :=
  Real.sqrt (v.1 ^ 2 + v.2 ^ 2)

/-- The player-control part of one `update` tick (lines 217-234): left/right
subtract/add the fixed 0.1 to `rotation` (the frame delta is not used); up
sets the velocity to magnitude 300 along `rotation - π/2`; down overrides it
with magnitude -150 along the same direction. -/
noncomputable def playerControlStep (inp : ControlInput) (p : CarState) : CarState :=
  let r0 := if inp.left then p.rotation - 0.1 else p.rotation
  let r1 := if inp.right then r0 + 0.1 else r0
  let v1 := if inp.up then
      (Real.cos (r1 - Real.pi / 2) * 300, Real.sin (r1 - Real.pi / 2) * 300)
    else p.velocity
  let v2 := if inp.down then
      (Real.cos (r1 - Real.pi / 2) * (-150), Real.sin (r1 - Real.pi / 2) * (-150))
    else v1
  { rotation := r1, velocity := v2 }

/-- The JavaScript function Math.atan2(y, x) (used by Phaser.Math.Angle.Between):
the argument of the complex number `x + y·i`. -/
noncomputable def atan2 (y x : ℝ) : ℝ :=
  Complex.arg ⟨x, y⟩

/-- The five checkpoint positions created in `create` (lines 125-131). -/
noncomputable def checkpointPositions : List (ℝ × ℝ) :=
  [(600, 100), (700, 288), (600, 476), (200, 476), (100, 288)]

/-- The AI update for one car (lines 238-249): the bearing from the car to the
target checkpoint is `Phaser.Math.Angle.Between`, the rotation is set to the
bearing plus π/2 (sprite frame), and the velocity is `200 + index * 20`
projected along the bearing. -/
noncomputable def aiStep (pos : ℝ × ℝ) (index : ℕ) (target : ℝ × ℝ) : CarState :=
  let angle := atan2 (target.2 - pos.2) (target.1 - pos.1)
  let sp : ℝ := 200 + (index : ℝ) * 20
  { rotation := angle + Real.pi / 2,
    velocity := (Real.cos angle * sp, Real.sin angle * sp) }

/-- The `aiCars.forEach((aiCar, index) => ...)` traversal, carrying the
running index. -/
noncomputable def aiTickFrom (target : ℝ × ℝ) : ℕ → List (ℝ × ℝ) → List CarState
  | _, [] => []
  | i, c :: cs => aiStep c i target :: aiTickFrom target (i + 1) cs

/-- The single-player AI block of `update` (lines 237-251): every AI car is
steered towards `checkpoints[currentCheckpoint]`, the same target for all of
them. -/
noncomputable def aiTick (s : Session) (cars : List (ℝ × ℝ)) : List CarState :=
  aiTickFrom (checkpointPositions.getD s.currentCheckpoint (0, 0)) 0 cars

/-- Session plus the kinematic state of the local player. -/
structure GameTickState where
  session : Session
  player : CarState

/-- One `update` callback invocation restricted to the session clock and the
player (lines 211-234): early-return when `!raceStarted || isPaused`,
otherwise `raceTime += delta` and the player-control step.  `delta` is the
frame time the engine passes to `update`. -/
noncomputable def updatePlayerFrame (isPaused : Bool) (delta : ℚ) (inp : ControlInput)
    (g : GameTickState) : GameTickState :=
  if !g.session.raceStarted || isPaused then g
  else
    { session := { g.session with raceTime := g.session.raceTime + delta }
      player := playerControlStep inp g.player }

/-- A turn-left-only input. -/
def inpLeft : ControlInput := ⟨true, false, false, false⟩

/-- A no-input tick. -/
def inpNone : ControlInput := ⟨false, false, false, false⟩

/-- A player at rest with rotation 0. -/
noncomputable def car0 : CarState := ⟨0, (0, 0)⟩

/-- A concrete racing game state used to evaluate the control model. -/
noncomputable def g0 : GameTickState := ⟨racingSession 3 5, car0⟩

/-- A concrete mid-race session (expected index 4 of 5, one lap done). -/
def s4 : Session := ⟨true, 0, 4, 1, 3, 5⟩

/-- A concrete racing session expecting checkpoint 2. -/
def s0c : Session := ⟨true, 0, 2, 0, 3, 5⟩

/-- A concrete fresh racing session expecting checkpoint 0. -/
def s00 : Session := ⟨true, 0, 0, 0, 3, 5⟩

/-- The leaderboard row fields used by the win-rate computations
(`src/src/components/Leaderboard/Leaderboard.tsx`); wins and race counts are
non-negative integers. -/
structure Player where
  wins : ℕ
  total_races : ℕ
deriving DecidableEq

/-- `Number.prototype.toFixed(1)` for the non-negative rationals arising here:
round to the nearest tenth and print one fractional digit. -/
def toFixed1 (q : ℚ) : String :=
  toString (round (q * 10) / 10 : ℤ) ++ "." ++ toString (round (q * 10) % 10 : ℤ)

/-- Source function getWinRate (Leaderboard.tsx lines 85-88): the string "0%" when
`totalRaces` is 0, otherwise `((wins / totalRaces) * 100).toFixed(1)` with a
percent sign appended. -/
def getWinRate (wins totalRaces : ℕ) : String :=
  if totalRaces = 0 then "0%"
  else toFixed1 (((wins : ℚ) / (totalRaces : ℚ)) * 100) ++ "%"

/-- The per-player rate used by the winrate sort in fetchLeaderboard
(lines 43-47): `total_races > 0 ? (wins / total_races) * 100 : 0`. -/
def winRateSortKey (p : Player) : ℚ :=
  if 0 < p.total_races then ((p.wins : ℚ) / (p.total_races : ℚ)) * 100 else 0

/-- The winrate sort comparator (lines 43-47): winRateB minus winRateA. -/
def winrateComparator (a b : Player) : ℚ :=
  winRateSortKey b - winRateSortKey a

/-- A concrete player with zero total races. -/
def pZero : Player := ⟨3, 0⟩

end MissionHubRace

namespace MissionHubRace

/-! ### Helper lemmas about the checkpoint overlap handler -/

/-- Entering a checkpoint other than the expected one leaves the session
unchanged and emits nothing. -/
theorem overlap_ne (i : ℕ) (s : Session) (h : i ≠ s.currentCheckpoint) :
    checkpointOverlap i s = (s, none) := by
  simp [checkpointOverlap, h]

/-- Entering the expected checkpoint without wrapping advances only the
expected index. -/
theorem overlap_nowrap (b : Bool) (t : ℚ) (c l : ℕ) (M : ℤ) (N : ℕ)
    (h1 : (c + 1) % N ≠ 0) :
    checkpointOverlap c ⟨b, t, c, l, M, N⟩ = (⟨b, t, (c + 1) % N, l, M, N⟩, none) := by
  simp [checkpointOverlap, h1]

/-- Entering the expected checkpoint on a wrap below the lap target increments
the lap count without finishing. -/
theorem overlap_wrap_nofinish (b : Bool) (t : ℚ) (c l : ℕ) (M : ℤ) (N : ℕ)
    (h1 : (c + 1) % N = 0) (h2 : ¬ M ≤ ((l + 1 : ℕ) : ℤ)) :
    checkpointOverlap c ⟨b, t, c, l, M, N⟩ = (⟨b, t, 0, l + 1, M, N⟩, none) := by
  simp [checkpointOverlap, h1, h2]
  omega

/-- Entering the expected checkpoint on a wrap that reaches the lap target
finishes the race and emits the result. -/
theorem overlap_wrap_finish (b : Bool) (t : ℚ) (c l : ℕ) (M : ℤ) (N : ℕ)
    (h1 : (c + 1) % N = 0) (h2 : M ≤ ((l + 1 : ℕ) : ℤ)) :
    checkpointOverlap c ⟨b, t, c, l, M, N⟩
      = (⟨false, t, 0, l + 1, M, N⟩, some ⟨t / 1000, l + 1, 1⟩) := by
  simp [checkpointOverlap, finishRace, h1, h2]
  omega

/-- On a wrap the counters change the same way whether or not the race
finishes. -/
theorem overlap_wrap_counters (b : Bool) (t : ℚ) (c l : ℕ) (M : ℤ) (N : ℕ)
    (h1 : (c + 1) % N = 0) :
    ((checkpointOverlap c ⟨b, t, c, l, M, N⟩).1.currentCheckpoint = 0)
    ∧ ((checkpointOverlap c ⟨b, t, c, l, M, N⟩).1.lapCount = l + 1)
    ∧ ((checkpointOverlap c ⟨b, t, c, l, M, N⟩).1.maxLaps = M)
    ∧ ((checkpointOverlap c ⟨b, t, c, l, M, N⟩).1.numCheckpoints = N)
    ∧ ((checkpointOverlap c ⟨b, t, c, l, M, N⟩).1.raceTime = t) := by
  by_cases h2 : M ≤ ((l + 1 : ℕ) : ℤ)
  · simp [overlap_wrap_finish b t c l M N h1 h2]
  · simp [overlap_wrap_nofinish b t c l M N h1 h2]

theorem runEntries_append (xs ys : List ℕ) (s : Session) :
    runEntries (xs ++ ys) s
      = ((runEntries ys (runEntries xs s).1).1,
         (runEntries xs s).2 ++ (runEntries ys (runEntries xs s).1).2) := by
  induction xs generalizing s with
  | nil => simp [runEntries]
  | cons e rest ih => simp [runEntries, ih, List.append_assoc]

theorem runEntries_singleton (e : ℕ) (s : Session) :
    runEntries [e] s = ((checkpointOverlap e s).1, (checkpointOverlap e s).2.toList) := by
  simp [runEntries]

theorem inOrder_succ (N k : ℕ) : inOrder N (k + 1) = inOrder N k ++ [k % N] := by
  simp [inOrder, List.range_succ]

/-! ### Arithmetic helpers -/

theorem mod_add_one (k N : ℕ) : (k % N + 1) % N = (k + 1) % N :=
  (Nat.mod_modEq k N).add_right 1

theorem mod_eq_zero_of_dvd {a b : ℕ} (h : b ∣ a) : a % b = 0 := by
  obtain ⟨q, rfl⟩ := h
  exact Nat.mul_mod_right b q

theorem wrap_iff (c N : ℕ) (hN : 1 ≤ N) (hc : c < N) :
    (c + 1) % N = 0 ↔ c = N - 1 := by
  constructor
  · intro h
    have hd : N ∣ (c + 1) := Nat.dvd_of_mod_eq_zero h
    have h1 : N ≤ c + 1 := Nat.le_of_dvd (Nat.succ_pos c) hd
    omega
  · intro h
    have hcN : c + 1 = N := by omega
    rw [hcN, Nat.mod_self]

theorem succ_div_of_wrap {k N : ℕ} (h : (k + 1) % N = 0) :
    (k + 1) / N = k / N + 1 := by
  rw [Nat.succ_div, if_pos (Nat.dvd_of_mod_eq_zero h)]

theorem succ_div_of_nowrap {k N : ℕ} (h : (k + 1) % N ≠ 0) :
    (k + 1) / N = k / N := by
  rw [Nat.succ_div, if_neg (fun hd => h (mod_eq_zero_of_dvd hd))]
  simp

/-! ### Trajectory of the session along in-order entries -/

/-- Closed form of the session after `k` in-order checkpoint entries from a
fresh racing session: the expected index is `k % N`, the lap count `k / N`,
and the race is running iff fewer than `L·N` entries have been processed. -/
theorem state_inOrder (L N : ℕ) (hL : 1 ≤ L) (hN : 1 ≤ N) (k : ℕ) :
    (runEntries (inOrder N k) (racingSession L N)).1
      = ⟨decide (k < L * N), 0, k % N, k / N, (L : ℤ), N⟩ := by
  induction k with
  | zero =>
    have hpos : 0 < L * N := Nat.mul_pos hL hN
    simp [inOrder, runEntries, racingSession, hpos]
  | succ k ih =>
    simp only [inOrder_succ, runEntries_append, runEntries_singleton, ih]
    by_cases hw : (k + 1) % N = 0
    · have hw' : (k % N + 1) % N = 0 := by rw [mod_add_one]; exact hw
      have hdiv : (k + 1) / N = k / N + 1 := succ_div_of_wrap hw
      by_cases hf : (L : ℤ) ≤ ((k / N + 1 : ℕ) : ℤ)
      · rw [overlap_wrap_finish _ _ _ _ _ _ hw' hf]
        have hfn : L ≤ k / N + 1 := by exact_mod_cast hf
        have hge : L * N ≤ k + 1 := by
          have hld : L ≤ (k + 1) / N := by omega
          exact (Nat.le_div_iff_mul_le (by omega : 0 < N)).mp hld
        have hdec : decide (k + 1 < L * N) = false := decide_eq_false (by omega)
        simp [Session.mk.injEq, hdec, hw, hdiv]
      · rw [overlap_wrap_nofinish _ _ _ _ _ _ hw' hf]
        have hfn : ¬ L ≤ k / N + 1 := by exact_mod_cast hf
        have hlt : k + 1 < L * N := by
          have h1 : (k + 1) / N < L := by omega
          exact (Nat.div_lt_iff_lt_mul (by omega : 0 < N)).mp h1
        have hdd : decide (k < L * N) = decide (k + 1 < L * N) :=
          decide_eq_decide.mpr (by omega)
        simp [Session.mk.injEq, hw, hdiv, hdd]
    · have hw' : (k % N + 1) % N ≠ 0 := by rw [mod_add_one]; exact hw
      rw [overlap_nowrap _ _ _ _ _ _ hw']
      have hdiv : (k + 1) / N = k / N := succ_div_of_nowrap hw
      have hne : k + 1 ≠ L * N := fun h => hw (by rw [h]; exact Nat.mul_mod_left L N)
      have hdd : decide (k < L * N) = decide (k + 1 < L * N) :=
        decide_eq_decide.mpr (by omega)
      simp [Session.mk.injEq, mod_add_one, hdiv, hdd]

/-- The counters follow `k % N` and `k / N` for every `k`, regardless of the
configured lap target (after the race finishes the overlap handler keeps
firing and keeps advancing them). -/
theorem counters_inOrder (L N : ℕ) (k : ℕ) :
    ∃ b : Bool, (runEntries (inOrder N k) (racingSession L N)).1
      = ⟨b, 0, k % N, k / N, (L : ℤ), N⟩ := by
  induction k with
  | zero => exact ⟨true, by simp [inOrder, runEntries, racingSession]⟩
  | succ k ih =>
    obtain ⟨b, hb⟩ := ih
    simp only [inOrder_succ, runEntries_append, runEntries_singleton, hb]
    by_cases hw : (k + 1) % N = 0
    · have hw' : (k % N + 1) % N = 0 := by rw [mod_add_one]; exact hw
      have hdiv : (k + 1) / N = k / N + 1 := succ_div_of_wrap hw
      by_cases hf : (L : ℤ) ≤ ((k / N + 1 : ℕ) : ℤ)
      · rw [overlap_wrap_finish _ _ _ _ _ _ hw' hf]
        exact ⟨false, by simp [Session.mk.injEq, hw, hdiv]⟩
      · rw [overlap_wrap_nofinish _ _ _ _ _ _ hw' hf]
        exact ⟨b, by simp [Session.mk.injEq, hw, hdiv]⟩
    · have hw' : (k % N + 1) % N ≠ 0 := by rw [mod_add_one]; exact hw
      rw [overlap_nowrap _ _ _ _ _ _ hw']
      have hdiv : (k + 1) / N = k / N := succ_div_of_nowrap hw
      exact ⟨b, by simp [Session.mk.injEq, mod_add_one, hdiv]⟩

/-- Along the first `L·N` in-order entries, exactly one race result is
emitted, at the very last entry, and it carries lap count `L`. -/
theorem results_inOrder (L N : ℕ) (hL : 1 ≤ L) (hN : 1 ≤ N) :
    ∀ k, k ≤ L * N →
      (runEntries (inOrder N k) (racingSession L N)).2
        = if k = L * N then [⟨0, L, 1⟩] else [] := by
  intro k
  induction k with
  | zero =>
    intro _
    have hpos : 0 < L * N := Nat.mul_pos hL hN
    simp [inOrder, runEntries, hpos.ne]
  | succ k ih =>
    intro hk1
    have hklt : k < L * N := hk1
    have hres := ih (by omega)
    have hst := state_inOrder L N hL hN k
    simp only [inOrder_succ, runEntries_append, runEntries_singleton, hst, hres]
    rw [if_neg (by omega : ¬ k = L * N)]
    by_cases hw : (k + 1) % N = 0
    · have hw' : (k % N + 1) % N = 0 := by rw [mod_add_one]; exact hw
      have hdiv : (k + 1) / N = k / N + 1 := succ_div_of_wrap hw
      by_cases hf : (L : ℤ) ≤ ((k / N + 1 : ℕ) : ℤ)
      · rw [overlap_wrap_finish _ _ _ _ _ _ hw' hf]
        have hfn : L ≤ k / N + 1 := by exact_mod_cast hf
        have hge : L * N ≤ k + 1 := by
          have hld : L ≤ (k + 1) / N := by omega
          exact (Nat.le_div_iff_mul_le (by omega : 0 < N)).mp hld
        have heq : k + 1 = L * N := by omega
        have hlap : k / N + 1 = L := by
          have : (k + 1) / N = L := by rw [heq]; exact Nat.mul_div_left L (by omega)
          omega
        simp [heq, hlap, RaceResult.mk.injEq]
      · rw [overlap_wrap_nofinish _ _ _ _ _ _ hw' hf]
        have hfn : ¬ L ≤ k / N + 1 := by exact_mod_cast hf
        have hlt : k + 1 < L * N := by
          have h1 : (k + 1) / N < L := by omega
          exact (Nat.div_lt_iff_lt_mul (by omega : 0 < N)).mp h1
        simp [if_neg (by omega : ¬ k + 1 = L * N)]
    · have hw' : (k % N + 1) % N ≠ 0 := by rw [mod_add_one]; exact hw
      rw [overlap_nowrap _ _ _ _ _ _ hw']
      have hne : k + 1 ≠ L * N := fun h => hw (by rw [h]; exact Nat.mul_mod_left L N)
      simp [if_neg hne]

/-! ### Claim theorems -/

/-- Claim C1: from a fresh racing session with lap target `L ≥ 1` and `N ≥ 1`
checkpoints, the race transitions to finished exactly once, on exactly the
`L·N`-th in-order checkpoint entry and not before, and the race result emitted
at that moment carries lap count `L`. -/
theorem race_finishes_once_at_lap_target (L N : ℕ) (hL : 1 ≤ L) (hN : 1 ≤ N) :
    (∀ k, k < L * N →
        (runEntries (inOrder N k) (racingSession L N)).2 = []
      ∧ (runEntries (inOrder N k) (racingSession L N)).1.raceStarted = true)
  ∧ (runEntries (inOrder N (L * N)) (racingSession L N)).2
      = [{ time := 0, laps := L, position := 1 }]
  ∧ (runEntries (inOrder N (L * N)) (racingSession L N)).1.raceStarted = false := by
  refine ⟨fun k hk => ⟨?_, ?_⟩, ?_, ?_⟩
  · rw [results_inOrder L N hL hN k (le_of_lt hk)]
    exact if_neg (by omega)
  · rw [state_inOrder L N hL hN k]
    simp [hk]
  · rw [results_inOrder L N hL hN (L * N) le_rfl]
    simp
  · rw [state_inOrder L N hL hN (L * N)]
    simp

/-- Witness for C1 at the source configuration `L = 3`, `N = 5`. -/
theorem race_finishes_once_at_lap_target_witness :
    ((runEntries (inOrder 5 7) (racingSession 3 5)).2 = []
      ∧ (runEntries (inOrder 5 7) (racingSession 3 5)).1.raceStarted = true)
  ∧ (runEntries (inOrder 5 (3 * 5)) (racingSession 3 5)).2
      = [{ time := 0, laps := 3, position := 1 }]
  ∧ (runEntries (inOrder 5 (3 * 5)) (racingSession 3 5)).1.raceStarted = false :=
  ⟨(race_finishes_once_at_lap_target 3 5 (by decide) (by decide)).1 7 (by decide),
   (race_finishes_once_at_lap_target 3 5 (by decide) (by decide)).2.1,
   (race_finishes_once_at_lap_target 3 5 (by decide) (by decide)).2.2⟩

/-- Claim C2: entering the expected checkpoint advances the expected index by
one modulo `N` and keeps it inside `[0, N)`, the lap count increments exactly
on the wrap from `N - 1` back to 0, and along in-order entries the visited
expected indices are exactly `0, 1, ..., N-1, 0, 1, ...` with lap count
`k / N` after `k` entries. -/
theorem expected_index_cycle :
    (∀ s : Session, 1 ≤ s.numCheckpoints → s.currentCheckpoint < s.numCheckpoints →
      (checkpointOverlap s.currentCheckpoint s).1.currentCheckpoint
          = (s.currentCheckpoint + 1) % s.numCheckpoints
      ∧ (checkpointOverlap s.currentCheckpoint s).1.currentCheckpoint < s.numCheckpoints
      ∧ (checkpointOverlap s.currentCheckpoint s).1.lapCount
          = (if s.currentCheckpoint = s.numCheckpoints - 1 then s.lapCount + 1
             else s.lapCount))
  ∧ (∀ (L N k : ℕ), 1 ≤ N →
      (runEntries (inOrder N k) (racingSession L N)).1.currentCheckpoint = k % N
      ∧ (runEntries (inOrder N k) (racingSession L N)).1.lapCount = k / N) := by
  constructor
  · intro s hN1 hc
    obtain ⟨b, t, c, l, M, N⟩ := s
    have hN1' : 1 ≤ N := hN1
    have hc' : c < N := hc
    by_cases hw : (c + 1) % N = 0
    · have hcN : c = N - 1 := (wrap_iff c N hN1' hc').mp hw
      obtain ⟨h1, h2, _, _, _⟩ := overlap_wrap_counters b t c l M N hw
      refine ⟨?_, ?_, ?_⟩
      · rw [h1, hw]
      · rw [h1]; omega
      · rw [h2, if_pos hcN]
    · have hcN : ¬ c = N - 1 := fun h => hw ((wrap_iff c N hN1' hc').mpr h)
      rw [overlap_nowrap b t c l M N hw]
      exact ⟨rfl, Nat.mod_lt _ (by omega), by rw [if_neg hcN]⟩
  · intro L N k _
    obtain ⟨b, hb⟩ := counters_inOrder L N k
    rw [hb]
    exact ⟨rfl, rfl⟩

/-- Witness for C2: a concrete wrap step and a concrete 12-entry run. -/
theorem expected_index_cycle_witness :
    ((checkpointOverlap s4.currentCheckpoint s4).1.currentCheckpoint
          = (s4.currentCheckpoint + 1) % s4.numCheckpoints
      ∧ (checkpointOverlap s4.currentCheckpoint s4).1.currentCheckpoint < s4.numCheckpoints
      ∧ (checkpointOverlap s4.currentCheckpoint s4).1.lapCount
          = (if s4.currentCheckpoint = s4.numCheckpoints - 1 then s4.lapCount + 1
             else s4.lapCount))
  ∧ ((runEntries (inOrder 5 12) (racingSession 3 5)).1.currentCheckpoint = 12 % 5
      ∧ (runEntries (inOrder 5 12) (racingSession 3 5)).1.lapCount = 12 / 5) :=
  ⟨expected_index_cycle.1 s4 (by decide) (by decide),
   expected_index_cycle.2 3 5 12 (by decide)⟩

/-- Claim C3: while the overlap of the expected checkpoint keeps re-firing (an
entity staying inside, or re-entering, the region), repeated firings have
exactly the effect of the first one — the expected index advances at most once
and the lap count is not double-incremented. -/
theorem single_occupancy_no_double_advance (s : Session) (m : ℕ)
    (hN : 2 ≤ s.numCheckpoints) (hc : s.currentCheckpoint < s.numCheckpoints) :
    runEntries (List.replicate (m + 1) s.currentCheckpoint) s
      = ((checkpointOverlap s.currentCheckpoint s).1,
         (checkpointOverlap s.currentCheckpoint s).2.toList) := by
  obtain ⟨b, t, c, l, M, N⟩ := s
  have hN' : 2 ≤ N := hN
  have hc' : c < N := hc
  have hcc1 : (checkpointOverlap c ⟨b, t, c, l, M, N⟩).1.currentCheckpoint = (c + 1) % N := by
    by_cases hw : (c + 1) % N = 0
    · rw [(overlap_wrap_counters b t c l M N hw).1, hw]
    · rw [overlap_nowrap b t c l M N hw]
  have hne : (c + 1) % N ≠ c := by
    intro h
    have h2 : (c + 1) % N = c % N := by rw [h, Nat.mod_eq_of_lt hc']
    have hd : N ∣ (c + 1) - c := (Nat.modEq_iff_dvd' (Nat.le_succ c)).mp h2.symm
    simp at hd
    omega
  have noop : ∀ (j : ℕ) (u : Session), u.currentCheckpoint ≠ c →
      runEntries (List.replicate j c) u = (u, []) := by
    intro j
    induction j with
    | zero => intro u _; simp [runEntries]
    | succ j ih =>
      intro u hu
      rw [List.replicate_succ]
      simp [runEntries, overlap_ne c u (Ne.symm hu), ih u hu]
  rw [List.replicate_succ]
  simp [runEntries, noop m _ (by rw [hcc1]; exact hne)]

/-- Witness for C3: three consecutive firings of checkpoint 2. -/
theorem single_occupancy_no_double_advance_witness :
    runEntries (List.replicate (2 + 1) s0c.currentCheckpoint) s0c
      = ((checkpointOverlap s0c.currentCheckpoint s0c).1,
         (checkpointOverlap s0c.currentCheckpoint s0c).2.toList) :=
  single_occupancy_no_double_advance s0c 2 (by decide) (by decide)

/-- Claim C4: entering a checkpoint whose index differs from the expected one
changes nothing — the session (expected index, lap count, finished flag) is
untouched and no result is emitted. -/
theorem out_of_order_checkpoint_noop (s : Session) (i : ℕ)
    (h : i ≠ s.currentCheckpoint) :
    checkpointOverlap i s = (s, none) :=
  overlap_ne i s h

/-- Witness for C4: entering checkpoint 2 while 0 is expected. -/
theorem out_of_order_checkpoint_noop_witness :
    checkpointOverlap 2 s00 = (s00, none) :=
  out_of_order_checkpoint_noop s00 2 (by decide)

/-- Claim C7: a paused frame changes nothing — no transition fires, and the
expected index, lap count and elapsed time are exactly the frozen values — and
any block of paused frames can be dropped: resuming continues from the frozen
session. -/
theorem paused_ticks_freeze_session :
    (∀ (d : ℚ) (ov : List ℕ) (s : Session), frame true d ov s = (s, []))
  ∧ (∀ (ps : List (ℚ × List ℕ)) (rest : List (Bool × ℚ × List ℕ)) (s : Session),
      runFrames (ps.map (fun x => (true, x.1, x.2)) ++ rest) s = runFrames rest s) := by
  constructor
  · intro d ov s
    simp [frame]
  · intro ps
    induction ps with
    | nil => intro rest s; simp
    | cons p ptail ih =>
      intro rest s
      simp [runFrames, frame, ih]

/-- Claim C8 (code evaluation): session creation performs no validation — any
configured lap target and initial checkpoint index are accepted as-is — and
with a lap target of 0 the resulting session misbehaves instead of being
rejected: the 0-lap race runs and finishes after one full lap with lap
count 1. -/
theorem creation_unvalidated_zero_lap_target :
    (∀ (M : ℤ) (c : ℕ),
        (initialSession M c).maxLaps = M ∧ (initialSession M c).currentCheckpoint = c)
  ∧ (runEntries (inOrder 5 5) (startRace (initialSession 0 0))).2
      = [{ time := 0, laps := 1, position := 1 }] := by
  constructor
  · intro M c
    exact ⟨rfl, rfl⟩
  · simp [runEntries, checkpointOverlap, finishRace, inOrder, startRace, initialSession,
      List.range_succ]

/-- Claim C9: the overlap handler never reads `raceStarted` — its effect on
the counters and its emission are the same for any value of the flag; in
particular entering the expected checkpoint before the countdown fires still
advances the index, and continuing to lap after the race finished re-triggers
the finish logic and emits a second race result. -/
theorem overlap_ignores_race_started :
    (∀ (s : Session) (b : Bool) (i : ℕ),
        (checkpointOverlap i { s with raceStarted := b }).1.currentCheckpoint
            = (checkpointOverlap i s).1.currentCheckpoint
      ∧ (checkpointOverlap i { s with raceStarted := b }).1.lapCount
            = (checkpointOverlap i s).1.lapCount
      ∧ (checkpointOverlap i { s with raceStarted := b }).2 = (checkpointOverlap i s).2)
  ∧ (checkpointOverlap 0 (initialSession 3 0)).1.currentCheckpoint = 1
  ∧ (runEntries (inOrder 5 20) (startRace (initialSession 3 0))).2
      = [{ time := 0, laps := 3, position := 1 }, { time := 0, laps := 4, position := 1 }] := by
  refine ⟨fun s b i => ?_, ?_, ?_⟩
  · obtain ⟨b0, t, c, l, M, N⟩ := s
    simp only [checkpointOverlap, finishRace]
    split_ifs <;> simp
  · simp [checkpointOverlap, initialSession]
  · simp [runEntries, checkpointOverlap, finishRace, inOrder, startRace, initialSession,
      List.range_succ]

/-! ### Player-control and AI kinematics -/

/-- The speed of a velocity obtained by projecting a magnitude along a
direction angle. -/
theorem speed_polar (θ a : ℝ) : speed (Real.cos θ * a, Real.sin θ * a) = |a| := by
  have h : (Real.cos θ * a) ^ 2 + (Real.sin θ * a) ^ 2 = a ^ 2 := by
    calc (Real.cos θ * a) ^ 2 + (Real.sin θ * a) ^ 2
        = (Real.cos θ ^ 2 + Real.sin θ ^ 2) * a ^ 2 := by ring
      _ = a ^ 2 := by rw [Real.cos_sq_add_sin_sq]; ring
  simp only [speed]
  rw [h]
  exact Real.sqrt_sq_eq_abs a

theorem pcs_rotation (inp : ControlInput) (p : CarState) :
    (playerControlStep inp p).rotation
      = p.rotation + (if inp.right then (0.1 : ℝ) else 0)
          - (if inp.left then (0.1 : ℝ) else 0) := by
  obtain ⟨l, r, u, d⟩ := inp
  cases l <;> cases r <;> simp [playerControlStep]

theorem pcs_velocity_up (inp : ControlInput) (p : CarState)
    (h1 : inp.up = true) (h2 : inp.down = false) :
    (playerControlStep inp p).velocity
      = (Real.cos ((playerControlStep inp p).rotation - Real.pi / 2) * 300,
         Real.sin ((playerControlStep inp p).rotation - Real.pi / 2) * 300) := by
  obtain ⟨l, r, u, d⟩ := inp
  simp only at h1 h2
  simp [playerControlStep, h1, h2]

theorem pcs_velocity_down (inp : ControlInput) (p : CarState)
    (h : inp.down = true) :
    (playerControlStep inp p).velocity
      = (Real.cos ((playerControlStep inp p).rotation - Real.pi / 2) * (-150),
         Real.sin ((playerControlStep inp p).rotation - Real.pi / 2) * (-150)) := by
  obtain ⟨l, r, u, d⟩ := inp
  simp only at h
  simp [playerControlStep, h]

theorem pcs_velocity_none (inp : ControlInput) (p : CarState)
    (h1 : inp.up = false) (h2 : inp.down = false) :
    (playerControlStep inp p).velocity = p.velocity := by
  obtain ⟨l, r, u, d⟩ := inp
  simp only at h1 h2
  simp [playerControlStep, h1, h2]

theorem pcs_speed_le (inp : ControlInput) (p : CarState)
    (h : speed p.velocity ≤ 300) :
    speed (playerControlStep inp p).velocity ≤ 300 := by
  by_cases hd : inp.down = true
  · rw [pcs_velocity_down inp p hd, speed_polar]
    rw [abs_of_nonpos (by norm_num)]
    norm_num
  · have hd' : inp.down = false := by simpa using hd
    by_cases hu : inp.up = true
    · rw [pcs_velocity_up inp p hu hd', speed_polar]
      rw [abs_of_nonneg (by norm_num)]
    · have hu' : inp.up = false := by simpa using hu
      rw [pcs_velocity_none inp p hu' hd']
      exact h

/-- Claim C5 (amended): per tick, turn-left/turn-right change the rotation by
the fixed constant 0.1 (not scaled by the frame delta); accelerate sets the
velocity to magnitude 300 along the current heading `rotation - π/2`;
decelerate overrides it with magnitude -150 along the same direction; with
neither thrust input the velocity is left unchanged; and, the incoming speed
being within the 300 cap, the resulting speed never exceeds 300 for any input
combination. -/
theorem player_control_step_spec (p : CarState) (inp : ControlInput)
    (hcap : speed p.velocity ≤ 300) :
    ((playerControlStep inp p).rotation
        = p.rotation + (if inp.right then (0.1 : ℝ) else 0)
            - (if inp.left then (0.1 : ℝ) else 0))
  ∧ (inp.up = true → inp.down = false →
      (playerControlStep inp p).velocity
        = (Real.cos ((playerControlStep inp p).rotation - Real.pi / 2) * 300,
           Real.sin ((playerControlStep inp p).rotation - Real.pi / 2) * 300))
  ∧ (inp.down = true →
      (playerControlStep inp p).velocity
        = (Real.cos ((playerControlStep inp p).rotation - Real.pi / 2) * (-150),
           Real.sin ((playerControlStep inp p).rotation - Real.pi / 2) * (-150)))
  ∧ (inp.up = false → inp.down = false →
      (playerControlStep inp p).velocity = p.velocity)
  ∧ speed (playerControlStep inp p).velocity ≤ 300 :=
  ⟨pcs_rotation inp p,
   fun h1 h2 => pcs_velocity_up inp p h1 h2,
   fun h => pcs_velocity_down inp p h,
   fun h1 h2 => pcs_velocity_none inp p h1 h2,
   pcs_speed_le inp p hcap⟩

/-- Witness for the amended C5, at a player at rest with no input. -/
theorem player_control_step_spec_witness :
    ((playerControlStep inpNone car0).rotation
        = car0.rotation + (if inpNone.right then (0.1 : ℝ) else 0)
            - (if inpNone.left then (0.1 : ℝ) else 0))
  ∧ (inpNone.up = true → inpNone.down = false →
      (playerControlStep inpNone car0).velocity
        = (Real.cos ((playerControlStep inpNone car0).rotation - Real.pi / 2) * 300,
           Real.sin ((playerControlStep inpNone car0).rotation - Real.pi / 2) * 300))
  ∧ (inpNone.down = true →
      (playerControlStep inpNone car0).velocity
        = (Real.cos ((playerControlStep inpNone car0).rotation - Real.pi / 2) * (-150),
           Real.sin ((playerControlStep inpNone car0).rotation - Real.pi / 2) * (-150)))
  ∧ (inpNone.up = false → inpNone.down = false →
      (playerControlStep inpNone car0).velocity = car0.velocity)
  ∧ speed (playerControlStep inpNone car0).velocity ≤ 300 :=
  player_control_step_spec car0 inpNone (by
    have h0 : speed car0.velocity = 0 := by simp [speed, car0]
    rw [h0]
    norm_num)

/-- Claim C5 as stated is false on the code: no fixed turn rate `r` makes the
per-tick heading change equal `-(r·dt)` across frame deltas, because the
rotation decrement is the constant 0.1 whatever `delta` the engine passes to
`update`. -/
theorem turn_rate_not_scaled_by_dt :
    ¬ ∃ r : ℝ, ∀ dt : ℚ,
      (updatePlayerFrame false dt inpLeft g0).player.rotation - g0.player.rotation
        = -(r * (dt : ℝ)) := by
  rintro ⟨r, h⟩
  have h1 := h 1
  have h2 := h 2
  simp [updatePlayerFrame, playerControlStep, g0, car0, inpLeft, racingSession] at h1 h2
  norm_num at h1 h2
  linarith

theorem aiStep_rotation (pos target : ℝ × ℝ) (i : ℕ) :
    (aiStep pos i target).rotation
      = atan2 (target.2 - pos.2) (target.1 - pos.1) + Real.pi / 2 := by
  simp [aiStep]

theorem aiStep_velocity (pos target : ℝ × ℝ) (i : ℕ) :
    (aiStep pos i target).velocity
      = (Real.cos (atan2 (target.2 - pos.2) (target.1 - pos.1)) * (200 + (i : ℝ) * 20),
         Real.sin (atan2 (target.2 - pos.2) (target.1 - pos.1)) * (200 + (i : ℝ) * 20)) := by
  simp [aiStep]

theorem aiStep_speed (pos target : ℝ × ℝ) (i : ℕ) :
    speed (aiStep pos i target).velocity = 200 + (i : ℝ) * 20 := by
  rw [aiStep_velocity, speed_polar]
  rw [abs_of_nonneg (by positivity)]

/-- Claim C6: the heading of each AI car is set to the bearing from its position
to the checkpoint at the current expected index of the session (the same target for
all AI cars), its velocity is the per-car speed `200 + index·20` projected
along that bearing, and three cars at one position with indices 0, 1, 2 get
identical headings with speeds 200, 220, 240. -/
theorem ai_pursuit_bearing_and_speeds (s : Session) (p target : ℝ × ℝ) (i : ℕ) :
    ((aiStep p i target).rotation - Real.pi / 2
        = atan2 (target.2 - p.2) (target.1 - p.1))
  ∧ ((aiStep p i target).velocity
      = (Real.cos (atan2 (target.2 - p.2) (target.1 - p.1)) * (200 + (i : ℝ) * 20),
         Real.sin (atan2 (target.2 - p.2) (target.1 - p.1)) * (200 + (i : ℝ) * 20)))
  ∧ (speed (aiStep p i target).velocity = 200 + (i : ℝ) * 20)
  ∧ (aiTick s [p, p, p]
      = [aiStep p 0 (checkpointPositions.getD s.currentCheckpoint (0, 0)),
         aiStep p 1 (checkpointPositions.getD s.currentCheckpoint (0, 0)),
         aiStep p 2 (checkpointPositions.getD s.currentCheckpoint (0, 0))])
  ∧ ((aiStep p 0 target).rotation = (aiStep p 1 target).rotation
      ∧ (aiStep p 1 target).rotation = (aiStep p 2 target).rotation)
  ∧ (speed (aiStep p 0 target).velocity = 200
      ∧ speed (aiStep p 1 target).velocity = 220
      ∧ speed (aiStep p 2 target).velocity = 240) := by
  refine ⟨?_, aiStep_velocity p target i, aiStep_speed p target i, ?_, ⟨?_, ?_⟩, ?_, ?_, ?_⟩
  · rw [aiStep_rotation]; ring
  · simp [aiTick, aiTickFrom]
  · rw [aiStep_rotation, aiStep_rotation]
  · rw [aiStep_rotation, aiStep_rotation]
  · rw [aiStep_speed]; norm_num
  · rw [aiStep_speed]; norm_num
  · rw [aiStep_speed]; norm_num

/-! ### Leaderboard win rate -/

/-- Claim C10: the win-rate computation guards the division by zero:
`getWinRate` returns `"0%"` whenever the total race count is 0, and the
winrate sort assigns rate 0 to every player with zero total races, on both
sides of the comparator. -/
theorem winrate_zero_races_guard (w : ℕ) (p : Player) (h : p.total_races = 0) :
    getWinRate w 0 = "0%"
  ∧ winRateSortKey p = 0
  ∧ (∀ q : Player, winrateComparator p q = winRateSortKey q
      ∧ winrateComparator q p = -(winRateSortKey q)) := by
  refine ⟨?_, ?_, ?_⟩
  · simp [getWinRate]
  · simp [winRateSortKey, h]
  · intro q
    simp [winrateComparator, winRateSortKey, h]

/-- Witness for C10, at wins 7 with zero races and at the concrete player
`pZero`. -/
theorem winrate_zero_races_guard_witness :
    getWinRate 7 0 = "0%"
  ∧ winRateSortKey pZero = 0
  ∧ (∀ q : Player, winrateComparator pZero q = winRateSortKey q
      ∧ winrateComparator q pZero = -(winRateSortKey q)) :=
  winrate_zero_races_guard 7 pZero (by decide)

end MissionHubRace
